import Mathlib

/-!
# Verification of the approximate-inference core (`newt/basemodels.py`)

A shallow embedding, over exact rationals, of the data model and operations of
the pseudo-likelihood site store (`GaussianDistribution`) and of the four model
classes (`GP`, `SparseGP`, `MarkovGP`, `SparseMarkovGP`).  Machine floats are
modelled as `ℚ`; the Cholesky-based solves (`cho_factor`/`cho_solve`) are given
their mathematical meaning on positive-definite inputs, namely multiplication
by the exact inverse; fallible operations (the `conditional_mean` cache of the
sparse Markov model) return `Option`.  External collaborators that the source
imports from `newt.ops` / `newt.utils` (the Kalman filter and smoother, the
Gaussian conditionals, `compute_conditional_statistics`) are opaque in the
source's model classes and are therefore taken as parameters here; the two
`newt.utils` helpers whose behaviour the claims depend on
(`sum_natural_params_by_group`, `inv`/`inv_vmap`) are modelled from the spec
and marked as such.
-/

/-- Square rational matrices of size `d`, the element type of a batched
`[n, d, d]` array in the source. -/
abbrev Mat (d : ℕ) : Type := Matrix (Fin d) (Fin d) ℚ

/-- Rational column vectors of size `d`, the element type of a batched
`[n, d, 1]` array in the source. -/
abbrev Col (d : ℕ) : Type := Matrix (Fin d) (Fin 1) ℚ

/-- Exact matrix inverse over `ℚ` via the adjugate.  This is the mathematical
meaning of the source's Cholesky-based solves `cho_solve(cho_factor(A), eye)`
on the positive-definite (hence invertible) matrices they are applied to; on a
singular input it returns the zero matrix, which models the solve failing. -/
def matInv {d : ℕ} (A : Mat d) : Mat d := A.det⁻¹ • A.adjugate

theorem matInv_mul {d : ℕ} (A : Mat d) (h : A.det ≠ 0) : matInv A * A = 1 := by
  rw [matInv, Matrix.smul_mul, Matrix.adjugate_mul, smul_smul, inv_mul_cancel₀ h, one_smul]

theorem mul_matInv {d : ℕ} (A : Mat d) (h : A.det ≠ 0) : A * matInv A = 1 := by
  rw [matInv, Matrix.mul_smul, Matrix.mul_adjugate, smul_smul, inv_mul_cancel₀ h, one_smul]

theorem matInv_eq_of_mul {d : ℕ} (A B : Mat d) (h : A.det ≠ 0) (hB : A * B = 1) :
    matInv A = B := by
  have h1 : matInv A * (A * B) = matInv A := by rw [hB, mul_one]
  rw [← Matrix.mul_assoc, matInv_mul A h, Matrix.one_mul] at h1
  exact h1.symm

/-- The inverse of a diagonal matrix with nonzero entries is the diagonal
matrix of entrywise inverses. -/
theorem matInv_diagonal {d : ℕ} (v : Fin d → ℚ) (h : ∀ i, v i ≠ 0) :
    matInv (Matrix.diagonal v) = Matrix.diagonal (fun i => (v i)⁻¹) := by
  apply matInv_eq_of_mul
  · rw [Matrix.det_diagonal]
    exact Finset.prod_ne_zero_iff.mpr fun i _ => h i
  · rw [Matrix.diagonal_mul_diagonal]
    have : (fun i => v i * (v i)⁻¹) = fun _ => (1 : ℚ) := by
      funext i; exact mul_inv_cancel₀ (h i)
    rw [this, Matrix.diagonal_one]

/-- `jax.lax.scan`: threads a carry through a list and stacks the per-step
outputs.  Shared by `MarkovGP.posterior_sample` and
`SparseMarkovGP.group_natural_params`. -/
def jaxScan {σ α β : Type} (f : σ → α → σ × β) (init : σ) : List α → σ × List β
  | [] => (init, [])
  | x :: xs =>
    let step := f init x
    let rest := jaxScan f step.1 xs
    (rest.1, step.2 :: rest.2)

/-- A scan whose carry is a bare counter is a map on the stacked axis. -/
theorem jaxScan_counter_map {α β : Type} (h : α → β) (xs : List α) : ∀ c : ℕ,
    (jaxScan (fun (i : ℕ) (x : α) => (i + 1, h x)) c xs).2 = xs.map h := by
  induction xs with
  | nil => intro c; rfl
  | cons x xs ih => intro c; simp only [jaxScan, List.map_cons, ih]

/-! ## The pseudo-likelihood store (`GaussianDistribution`, lines 40-88)

A batch of `n` Gaussian factors of dimension `d`, stored in both the
mean/covariance and the natural parameterisation. -/

/-- State of `GaussianDistribution`: the four stored arrays
`mean_ [n,d,1]`, `covariance_ [n,d,d]`, `nat1_ [n,d,1]`, `nat2_ [n,d,d]`. -/
structure GaussianDistribution (n d : ℕ) : Type where
  mean_ : Fin n → Col d
  covariance_ : Fin n → Mat d
  nat1_ : Fin n → Col d
  nat2_ : Fin n → Mat d

/-- `GaussianDistribution.reparametrise` (lines 73-78): a batched Cholesky
factorisation of `param2` followed by two batched solves, returning
`(param2⁻¹ param1, param2⁻¹)`.  No jitter is added to `param2`. -/
def gd_reparametrise {n d : ℕ} (param1 : Fin n → Col d) (param2 : Fin n → Mat d) :
    (Fin n → Col d) × (Fin n → Mat d) :=
  (fun k => matInv (param2 k) * param1 k, fun k => matInv (param2 k))

/-- The `GaussianDistribution` constructor (lines 48-52): store the given mean
and covariance and derive the natural parameters by `reparametrise`. -/
def gd_mk {n d : ℕ} (mean : Fin n → Col d) (covariance : Fin n → Mat d) :
    GaussianDistribution n d :=
  { mean_ := mean
    covariance_ := covariance
    nat1_ := (gd_reparametrise mean covariance).1
    nat2_ := (gd_reparametrise mean covariance).2 }

/-- `GaussianDistribution.update_mean_cov` (lines 80-83). -/
def gd_update_mean_cov {n d : ℕ} (_g : GaussianDistribution n d)
    (mean : Fin n → Col d) (covariance : Fin n → Mat d) : GaussianDistribution n d :=
  gd_mk mean covariance

/-- `GaussianDistribution.update_nat_params` (lines 85-88): store the given
natural parameters and derive mean and covariance by `reparametrise`. -/
def gd_update_nat_params {n d : ℕ} (_g : GaussianDistribution n d)
    (nat1 : Fin n → Col d) (nat2 : Fin n → Mat d) : GaussianDistribution n d :=
  { mean_ := (gd_reparametrise nat1 nat2).1
    covariance_ := (gd_reparametrise nat1 nat2).2
    nat1_ := nat1
    nat2_ := nat2 }

/-- C1: after any successful mutation of the pseudo-likelihood store (one
whose batched Cholesky factorisations succeed, modelled as the factored
matrices being invertible), every site `k` satisfies
`covariance_k * nat1_k = mean_k` and `covariance_k * nat2_k = I` — exactly,
hence in particular within the spec's `1e-6` tolerance. -/
theorem gd_dual_consistency {n d : ℕ} (g : GaussianDistribution n d)
    (mean : Fin n → Col d) (covariance : Fin n → Mat d)
    (nat1 : Fin n → Col d) (nat2 : Fin n → Mat d)
    (hc : ∀ k, (covariance k).det ≠ 0) (hn : ∀ k, (nat2 k).det ≠ 0) :
    (∀ k, (gd_update_mean_cov g mean covariance).covariance_ k *
            (gd_update_mean_cov g mean covariance).nat1_ k =
          (gd_update_mean_cov g mean covariance).mean_ k ∧
          (gd_update_mean_cov g mean covariance).covariance_ k *
            (gd_update_mean_cov g mean covariance).nat2_ k = 1) ∧
    (∀ k, (gd_update_nat_params g nat1 nat2).covariance_ k *
            (gd_update_nat_params g nat1 nat2).nat1_ k =
          (gd_update_nat_params g nat1 nat2).mean_ k ∧
          (gd_update_nat_params g nat1 nat2).covariance_ k *
            (gd_update_nat_params g nat1 nat2).nat2_ k = 1) := by
  constructor
  · intro k
    constructor
    · show covariance k * (matInv (covariance k) * mean k) = mean k
      rw [← Matrix.mul_assoc, mul_matInv _ (hc k), Matrix.one_mul]
    · show covariance k * matInv (covariance k) = 1
      exact mul_matInv _ (hc k)
  · intro k
    constructor
    · rfl
    · show matInv (nat2 k) * nat2 k = 1
      exact matInv_mul _ (hn k)

/-- Witness for C1 at a concrete input: one site of dimension 1 with
covariance `2` and updated natural parameters `(3, 4)`. -/
theorem gd_dual_consistency_witness :
    ((gd_update_mean_cov (gd_mk (fun _ : Fin 1 => !![3]) (fun _ => !![2]))
        (fun _ => !![5]) (fun _ => !![2])).covariance_ 0 *
      (gd_update_mean_cov (gd_mk (fun _ : Fin 1 => !![3]) (fun _ => !![2]))
        (fun _ => !![5]) (fun _ => !![2])).nat1_ 0 =
      (gd_update_mean_cov (gd_mk (fun _ : Fin 1 => !![3]) (fun _ => !![2]))
        (fun _ => !![5]) (fun _ => !![2])).mean_ 0) ∧
    ((gd_update_nat_params (gd_mk (fun _ : Fin 1 => !![3]) (fun _ => !![2]))
        (fun _ => !![3]) (fun _ => !![4])).covariance_ 0 *
      (gd_update_nat_params (gd_mk (fun _ : Fin 1 => !![3]) (fun _ => !![2]))
        (fun _ => !![3]) (fun _ => !![4])).nat2_ 0 = 1) := by
  have h := gd_dual_consistency (gd_mk (fun _ : Fin 1 => !![3]) (fun _ => !![2]))
    (fun _ => !![5]) (fun _ => !![2]) (fun _ => !![3]) (fun _ => !![4])
    (fun _ => by simp [Matrix.det_fin_one])
    (fun _ => by simp [Matrix.det_fin_one])
  exact ⟨(h.1 0).1, (h.2 0).2⟩

/-! ## Site grouping for the tied-site sparse Markov model
(`SparseMarkovGP.group_natural_params`, lines 987-1010) -/

/-- Modelled from the spec: `newt.utils.sum_natural_params_by_group` is not
under `src/`; §4.E describes the grouping as "each interval's new naturals
equal the sum of contributions from its members", with `c_k` counting the
members present in this update.  The scan body therefore scatter-adds each
data point's contribution `(nat1_i, nat2_i)` into the slot of its enclosing
interval `ind_i` and increments that slot's counter. -/
def sum_natural_params_by_group {T d : ℕ}
    (carry : (Fin T → Col d) × (Fin T → Mat d) × (Fin T → ℚ))
    (input : Fin T × Col d × Mat d) :
    ((Fin T → Col d) × (Fin T → Mat d) × (Fin T → ℚ)) × Unit :=
  ((Function.update carry.1 input.1 (carry.1 input.1 + input.2.1),
    Function.update carry.2.1 input.1 (carry.2.1 input.1 + input.2.2),
    Function.update carry.2.2 input.1 (carry.2.2 input.1 + 1)), ())

/-- `SparseMarkovGP.group_natural_params` (lines 987-1010): scan the grouping
fold over the per-data-point naturals, then blend with the old stored naturals
through the residual weight `1 - counter/max(num_neighbours, 1)`, and finally
add `1e-8·I` to the returned `nat2`.  `inputs` is the stacked
`(ind, nat1_n, nat2_n)` being scanned over. -/
def smgp_group_natural_params {T d : ℕ}
    (oldNat1 : Fin T → Col d) (oldNat2 : Fin T → Mat d)
    (numNeighbours : Fin T → ℚ) (inputs : List (Fin T × Col d × Mat d)) :
    (Fin T → Col d) × (Fin T → Mat d) :=
  let scanned := (jaxScan sum_natural_params_by_group
    (fun _ => 0, fun _ => 0, fun _ => 0) inputs).1
  (fun k => scanned.1 k +
      (1 - scanned.2.2 k / max (numNeighbours k) 1) • oldNat1 k,
   fun k => (scanned.2.1 k +
      (1 - scanned.2.2 k / max (numNeighbours k) 1) • oldNat2 k) +
      (1 / 100000000 : ℚ) • (1 : Mat d))

theorem sum_by_group_scan {T d : ℕ} (inputs : List (Fin T × Col d × Mat d)) :
    ∀ (z : (Fin T → Col d) × (Fin T → Mat d) × (Fin T → ℚ)) (k : Fin T),
    ((jaxScan sum_natural_params_by_group z inputs).1.1 k =
      z.1 k + ((inputs.filter (fun p => p.1 = k)).map (fun p => p.2.1)).sum) ∧
    ((jaxScan sum_natural_params_by_group z inputs).1.2.1 k =
      z.2.1 k + ((inputs.filter (fun p => p.1 = k)).map (fun p => p.2.2)).sum) ∧
    ((jaxScan sum_natural_params_by_group z inputs).1.2.2 k =
      z.2.2 k + inputs.countP (fun p => p.1 = k)) := by
  induction inputs with
  | nil => intro z k; simp [jaxScan]
  | cons x xs ih =>
    intro z k
    have h := ih (sum_natural_params_by_group z x).1 k
    by_cases hx : x.1 = k
    · subst hx
      simp only [jaxScan, List.filter_cons, List.countP_cons, decide_eq_true_eq]
      refine ⟨?_, ?_, ?_⟩
      · rw [h.1]
        simp [sum_natural_params_by_group, add_assoc]
      · rw [h.2.1]
        simp [sum_natural_params_by_group, add_assoc]
      · rw [h.2.2]
        simp [sum_natural_params_by_group]
        ring
    · simp only [jaxScan, List.filter_cons, List.countP_cons, decide_eq_true_eq, hx,
        if_false, ite_false]
      refine ⟨?_, ?_, ?_⟩
      · rw [h.1]
        show Function.update z.1 x.1 _ k + _ = _
        rw [Function.update_noteq (Ne.symm hx)]
      · rw [h.2.1]
        show Function.update z.2.1 x.1 _ k + _ = _
        rw [Function.update_noteq (Ne.symm hx)]
      · rw [h.2.2]
        show Function.update z.2.2 x.1 _ k + _ = _
        rw [Function.update_noteq (Ne.symm hx)]
        simp

/-- C2: each inducing interval's returned natural parameters equal the sum of
the contributions of its member data points in this update, plus the residual
`(1 - c_k / N_k)` times the old stored naturals, where `c_k` is the number of
members of interval `k` present in the update and `N_k = max(num_neighbours_k,
1)`; afterwards `1e-8·I` is added to the returned `nat2`. -/
theorem smgp_group_natural_params_spec {T d : ℕ}
    (oldNat1 : Fin T → Col d) (oldNat2 : Fin T → Mat d)
    (numNeighbours : Fin T → ℚ) (inputs : List (Fin T × Col d × Mat d)) (k : Fin T) :
    (smgp_group_natural_params oldNat1 oldNat2 numNeighbours inputs).1 k =
      ((inputs.filter (fun p => p.1 = k)).map (fun p => p.2.1)).sum +
      (1 - (inputs.countP (fun p => p.1 = k) : ℚ) / max (numNeighbours k) 1) • oldNat1 k ∧
    (smgp_group_natural_params oldNat1 oldNat2 numNeighbours inputs).2 k =
      (((inputs.filter (fun p => p.1 = k)).map (fun p => p.2.2)).sum +
      (1 - (inputs.countP (fun p => p.1 = k) : ℚ) / max (numNeighbours k) 1) • oldNat2 k) +
      (1 / 100000000 : ℚ) • (1 : Mat d) := by
  have h := sum_by_group_scan inputs (fun _ => 0, fun _ => 0, fun _ => 0) k
  constructor
  · show (jaxScan sum_natural_params_by_group _ inputs).1.1 k + _ = _
    rw [h.1, h.2.2]
    simp
  · show ((jaxScan sum_natural_params_by_group _ inputs).1.2.1 k + _) + _ = _
    rw [h.2.1, h.2.2]
    simp

/-! ## Jitter on inversion (`GaussianDistribution.reparametrise`, lines 73-78,
and `SparseGP.compute_full_pseudo_lik`, lines 384-388)

`newt.utils.inv` / `inv_vmap` are not under `src/`.  Modelled from the spec
(§4.A, "symmetric positive-definite solve via Cholesky; batched (per-index)
matrix inverse"): a Cholesky-based inverse of the given matrix itself.  Every
call site in `basemodels.py` that wants jitter adds it explicitly to the
argument (`+ 1e-12 * np.eye(...)`), so none is added inside the inverse. -/

/-- Modelled from the spec: `newt.utils.inv_vmap`, the batched per-index
matrix inverse (§4.A), applied to each `[d, d]` slice. -/
def inv_vmap {n d : ℕ} (A : Fin n → Mat d) : Fin n → Mat d := fun k => matInv (A k)

/-- The claim's reading of the spec for C3: `reparametrise` with `1e-8·I`
added to the factored matrix before the two batched Cholesky solves.  Stated
from the spec's words, to be compared with `gd_reparametrise`, which is
translated from the source. -/
def gd_reparametrise_jittered {n d : ℕ} (param1 : Fin n → Col d) (param2 : Fin n → Mat d) :
    (Fin n → Col d) × (Fin n → Mat d) :=
  (fun k => matInv (param2 k + (1 / 100000000 : ℚ) • (1 : Mat d)) * param1 k,
   fun k => matInv (param2 k + (1 / 100000000 : ℚ) • (1 : Mat d)))

/-- `SparseGP.compute_full_pseudo_nat` (lines 390-396): project the
per-data-point site naturals (scalar sites, `obs_dim = 1`) through the
conditional mapping `Wuf = Kuu⁻¹ Kuf`, giving one natural-parameter pair in
inducing space per data point. -/
def sgp_compute_full_pseudo_nat {M Nb : ℕ} (kernel : ℚ → ℚ → ℚ)
    (Z : Fin M → ℚ) (Xb : Fin Nb → ℚ) (nat1 nat2 : Fin Nb → ℚ) :
    (Fin Nb → Col M) × (Fin Nb → Mat M) :=
  let Kuf : Matrix (Fin M) (Fin Nb) ℚ := fun i j => kernel (Z i) (Xb j)
  let Kuu : Mat M := fun i j => kernel (Z i) (Z j)
  let Wuf := matInv Kuu * Kuf
  (fun k => fun i _ => Wuf i k * nat1 k,
   fun k => fun i j => Wuf i k * nat2 k * Wuf j k)

/-- `SparseGP.compute_full_pseudo_lik` (lines 384-388): invert each projected
`nat2` slice after adding `1e-12·I` (not `1e-8·I`), and apply the result to
the projected `nat1`. -/
def sgp_compute_full_pseudo_lik {M Nb : ℕ} (kernel : ℚ → ℚ → ℚ)
    (Z : Fin M → ℚ) (Xb : Fin Nb → ℚ) (nat1 nat2 : Fin Nb → ℚ) :
    (Fin Nb → Col M) × (Fin Nb → Mat M) :=
  let nats := sgp_compute_full_pseudo_nat kernel Z Xb nat1 nat2
  let pseudo_var := inv_vmap (fun k => nats.2 k + (1 / 1000000000000 : ℚ) • (1 : Mat M))
  (fun k => pseudo_var k * nats.1 k, pseudo_var)

/-- C3 counterexample: on the one-site batch with covariance `1`, the
reparametrisation the source performs (no jitter) differs from the `1e-8`-
jittered one the claim asserts: the derived `nat2` is exactly `1`, not
`(1 + 1e-8)⁻¹`. -/
theorem c3_jitter_counterexample :
    (gd_reparametrise (fun _ : Fin 1 => !![1]) (fun _ => !![1])).2 0 ≠
    (gd_reparametrise_jittered (fun _ : Fin 1 => !![1]) (fun _ => !![1])).2 0 := by
  intro h
  have h00 := congrFun (congrFun h 0) 0
  simp only [gd_reparametrise, gd_reparametrise_jittered, matInv] at h00
  rw [Matrix.det_fin_one] at h00
  norm_num [Matrix.adjugate_fin_one, Matrix.smul_apply] at h00

/-- C3 amended: the jitter policy is not a uniform `1e-8·I`.
`GaussianDistribution.reparametrise` adds no jitter at all — its batched
Cholesky solves are against the raw stored matrix, so the raw matrix times
each output is exactly the identity (resp. the other parameter) — and
`SparseGP.compute_full_pseudo_lik` adds `1e-12·I`, not `1e-8·I`, before its
batched inversion. -/
theorem c3_jitter_amended {n d M Nb : ℕ}
    (p1 : Fin n → Col d) (p2 : Fin n → Mat d)
    (kernel : ℚ → ℚ → ℚ) (Z : Fin M → ℚ) (Xb : Fin Nb → ℚ) (nat1 nat2 : Fin Nb → ℚ)
    (hp : ∀ k, (p2 k).det ≠ 0)
    (hs : ∀ k, ((sgp_compute_full_pseudo_nat kernel Z Xb nat1 nat2).2 k +
      (1 / 1000000000000 : ℚ) • (1 : Mat M)).det ≠ 0) :
    (∀ k, p2 k * (gd_reparametrise p1 p2).2 k = 1 ∧
          p2 k * (gd_reparametrise p1 p2).1 k = p1 k) ∧
    (∀ k, ((sgp_compute_full_pseudo_nat kernel Z Xb nat1 nat2).2 k +
        (1 / 1000000000000 : ℚ) • (1 : Mat M)) *
        (sgp_compute_full_pseudo_lik kernel Z Xb nat1 nat2).2 k = 1) := by
  constructor
  · intro k
    refine ⟨mul_matInv _ (hp k), ?_⟩
    show p2 k * (matInv (p2 k) * p1 k) = p1 k
    rw [← Matrix.mul_assoc, mul_matInv _ (hp k), Matrix.one_mul]
  · intro k
    exact mul_matInv _ (hs k)

/-- Witness for the amended C3 at a concrete input: a single 1-dimensional
site with covariance `2`, and a sparse model with one inducing point, one data
point and constant kernel `1`. -/
theorem c3_jitter_amended_witness :
    ((fun _ : Fin 1 => !![(2 : ℚ)]) 0 *
      (gd_reparametrise (fun _ : Fin 1 => !![1]) (fun _ => !![2])).2 0 = 1) ∧
    (((sgp_compute_full_pseudo_nat (fun _ _ => 1) (fun _ : Fin 1 => 0)
        (fun _ : Fin 1 => 0) (fun _ => 1) (fun _ => 1)).2 0 +
        (1 / 1000000000000 : ℚ) • (1 : Mat 1)) *
      (sgp_compute_full_pseudo_lik (fun _ _ => 1) (fun _ : Fin 1 => 0)
        (fun _ : Fin 1 => 0) (fun _ => 1) (fun _ => 1)).2 0 = 1) := by
  have h := @c3_jitter_amended 1 1 1 1
    (fun _ => !![1]) (fun _ => !![2]) (fun _ _ => 1) (fun _ => 0) (fun _ => 0)
    (fun _ => 1) (fun _ => 1)
    (fun _ => by simp [Matrix.det_fin_one])
    (fun _ => by
      simp [sgp_compute_full_pseudo_nat, Matrix.det_fin_one, Matrix.mul_apply,
        matInv, Matrix.adjugate_fin_one, Matrix.smul_apply, Matrix.one_apply]
      norm_num)
  exact ⟨(h.1 0).1, h.2 0⟩

/-! ## Inducing grid of `SparseMarkovGP` (`__init__`, lines 812-818) -/

/-- The sentinel value `1e10` that the source uses for the `±∞` endpoints
(`inf = np.array([[1e10]])`, line 815). -/
def smgp_sentinel : ℚ := 10000000000

/-- The stored inducing grid `self.Z` (lines 812-816): the inducing inputs,
sorted, with `-1e10` prepended and `1e10` appended. -/
def smgp_Z (Z : List ℚ) : List ℚ :=
  -smgp_sentinel :: (Z.insertionSort (· ≤ ·) ++ [smgp_sentinel])

/-- `self.dz = np.diff(self.Z)` (line 817): consecutive differences of the
stored grid. -/
def smgp_dz (Z : List ℚ) : List ℚ :=
  List.zipWith (fun a b => b - a) (smgp_Z Z) (smgp_Z Z).tail

theorem sorted_append_singleton (s : ℚ) :
    ∀ l : List ℚ, l.Sorted (· ≤ ·) → (∀ x ∈ l, x ≤ s) →
    (l ++ [s]).Sorted (· ≤ ·) := by
  intro l
  induction l with
  | nil => intro _ _; simp
  | cons a l ih =>
    intro hs hmem
    rw [List.cons_append, List.sorted_cons]
    refine ⟨?_, ih (List.sorted_cons.mp hs).2
      (fun x hx => hmem x (List.mem_cons_of_mem a hx))⟩
    intro b hbm
    rcases List.mem_append.mp hbm with h1 | h2
    · exact (List.sorted_cons.mp hs).1 b h1
    · rw [List.mem_singleton.mp h2]
      exact hmem a (List.mem_cons_self a l)

/-- C4: at `SparseMarkovGP` construction the inducing inputs are stored
sorted and augmented with the sentinel endpoints (one prepended, one
appended); `dz` has one entry per consecutive pair, `dz[k] = Z[k+1] - Z[k]`,
so `dz` has length (number of original inducing points) + 1.  The whole
stored grid is sorted whenever the inducing inputs lie within the sentinel
range. -/
theorem smgp_z_dz_spec (Z : List ℚ) :
    (smgp_Z Z = -smgp_sentinel :: (Z.insertionSort (· ≤ ·) ++ [smgp_sentinel]) ∧
      (Z.insertionSort (· ≤ ·)).Sorted (· ≤ ·)) ∧
    (smgp_dz Z).length = Z.length + 1 ∧
    ((∀ x ∈ Z, -smgp_sentinel ≤ x ∧ x ≤ smgp_sentinel) →
      (smgp_Z Z).Sorted (· ≤ ·)) ∧
    (∀ k : ℕ, k < (smgp_dz Z).length →
      (smgp_dz Z).getD k 0 = (smgp_Z Z).getD (k + 1) 0 - (smgp_Z Z).getD k 0) := by
  have hlenZ : (smgp_Z Z).length = Z.length + 2 := by
    simp [smgp_Z, List.length_insertionSort]
  have hlen : (smgp_dz Z).length = Z.length + 1 := by
    rw [smgp_dz, List.length_zipWith, List.length_tail, hlenZ]
    simp
  refine ⟨⟨rfl, List.sorted_insertionSort _ Z⟩, hlen, ?_, ?_⟩
  · intro hb
    rw [smgp_Z]
    rw [List.sorted_cons]
    constructor
    · intro b hbmem
      rcases List.mem_append.mp hbmem with h1 | h2
      · exact ((hb b ((List.perm_insertionSort _ Z).mem_iff.mp h1)).1)
      · rw [List.mem_singleton.mp h2]
        norm_num [smgp_sentinel]
    · exact sorted_append_singleton smgp_sentinel _ (List.sorted_insertionSort _ Z)
        (fun x hx => (hb x ((List.perm_insertionSort _ Z).mem_iff.mp hx)).2)
  · intro k hk
    have hk1 : k < (smgp_Z Z).tail.length := by
      rw [List.length_tail, hlenZ]
      rw [hlen] at hk
      omega
    have hk2 : k + 1 < (smgp_Z Z).length := by
      rw [hlenZ]
      rw [hlen] at hk
      omega
    have hk0 : k < (smgp_Z Z).length := by omega
    have hkz : k < (List.zipWith (fun a b => b - a) (smgp_Z Z) (smgp_Z Z).tail).length := by
      rw [← smgp_dz]
      exact hk
    rw [smgp_dz, List.getD_eq_getElem _ _ hkz, List.getD_eq_getElem _ _ hk2,
      List.getD_eq_getElem _ _ hk0, List.getElem_zipWith, List.getElem_tail]

/-- Witness for C4 at the concrete inducing set `Z = [1, 0]`: the grid is
`[-1e10, 0, 1, 1e10]`, `dz = [1e10, 1, 1e10 - 1]` of length `2 + 1`, and the
entry at `k = 1` is the difference of the enclosing grid points. -/
theorem smgp_z_dz_spec_witness :
    (smgp_dz [1, 0]).length = 2 + 1 ∧
    (smgp_Z [1, 0]).Sorted (· ≤ ·) ∧
    (smgp_dz [1, 0]).getD 1 0 = (smgp_Z [1, 0]).getD 2 0 - (smgp_Z [1, 0]).getD 1 0 := by
  have h := smgp_z_dz_spec [1, 0]
  exact ⟨h.2.1, h.2.2.1 (by decide), h.2.2.2 1 (by decide)⟩

/-! ## Initial site and posterior containers
(`BaseModel.__init__` lines 118-130, `SparseGP.__init__` lines 355-357,
`SparseMarkovGP.__init__` lines 819-835) -/

/-- `BaseModel.__init__` (lines 118-121): the pseudo-likelihood store over the
`N` data points, zero means and covariance `1e2 * eye` per site.  Inherited by
`GP`, `SparseGP` and `MarkovGP`. -/
def base_init_pseudo_lik (N ps : ℕ) : GaussianDistribution N ps :=
  gd_mk (fun _ => 0) (fun _ => (100 : ℚ) • 1)

/-- `BaseModel.__init__` (line 122): zero posterior means. -/
def base_init_posterior_mean (N fd : ℕ) : Fin N → Col fd := fun _ => 0

/-- `BaseModel.__init__` (line 123): identity posterior variance per point. -/
def base_init_posterior_variance (N fd : ℕ) : Fin N → Mat fd := fun _ => 1

/-- `SparseGP.__init__` (lines 355-357): posterior containers over the `M`
inducing points, zero means, identity (co)variances. -/
def sgp_init_posterior_mean (M fd : ℕ) : Fin M → Col fd := fun _ => 0

def sgp_init_posterior_variance (M fd : ℕ) : Fin M → Mat fd := fun _ => 1

def sgp_init_posterior_covariance (M : ℕ) : Mat M := 1

/-- `SparseMarkovGP.__init__` (line 825): the initial `nat2` over paired
states of dimension `2S`, per transition `k`:
`index_update(1e-8 * eyes, index[:-1, S, S], 1e-2)` — start from `1e-8·I` and
set the `(S, S)` entry to `1e-2` on every slice except the last. -/
def smgp_init_nat2 (S T : ℕ) : Fin T → Mat (2 * S) := fun k i j =>
  if (k : ℕ) < T - 1 ∧ (i : ℕ) = S ∧ (j : ℕ) = S then 1 / 100
  else ((1 / 100000000 : ℚ) • (1 : Mat (2 * S))) i j

/-- `SparseMarkovGP.__init__` (lines 830-833): the pseudo-likelihood store
over the `T` transitions, zero means, covariance `inv_vmap(nat2)`. -/
def smgp_init_pseudo_lik (S T : ℕ) : GaussianDistribution T (2 * S) :=
  gd_mk (fun _ => 0) (inv_vmap (smgp_init_nat2 S T))

/-- `SparseMarkovGP.__init__` (lines 834-835): zero posterior means, identity
posterior variance, over paired states. -/
def smgp_init_posterior_mean (S T : ℕ) : Fin T → Col (2 * S) := fun _ => 0

def smgp_init_posterior_variance (S T : ℕ) : Fin T → Mat (2 * S) := fun _ => 1

theorem smgp_init_nat2_eq_diagonal (S T : ℕ) (k : Fin T) :
    smgp_init_nat2 S T k =
      Matrix.diagonal (fun i : Fin (2 * S) =>
        if (k : ℕ) < T - 1 ∧ (i : ℕ) = S then 1 / 100 else 1 / 100000000) := by
  funext i j
  by_cases hij : i = j
  · subst hij
    rw [Matrix.diagonal_apply_eq]
    by_cases hc : (k : ℕ) < T - 1 ∧ (i : ℕ) = S
    · simp [smgp_init_nat2, hc.1, hc.2]
    · have : ¬((k : ℕ) < T - 1 ∧ (i : ℕ) = S ∧ (i : ℕ) = S) := by tauto
      simp only [smgp_init_nat2, this, if_false, Matrix.smul_apply,
        Matrix.one_apply_eq, smul_eq_mul, mul_one]
      rw [if_neg hc]
  · rw [Matrix.diagonal_apply_ne _ hij]
    have : ¬((k : ℕ) < T - 1 ∧ (i : ℕ) = S ∧ (j : ℕ) = S) := by
      rintro ⟨_, hi, hj⟩
      exact hij (Fin.ext (hi.trans hj.symm))
    simp [smgp_init_nat2, this, Matrix.one_apply_ne hij]

/-- The initial site covariance of `SparseMarkovGP` in closed form: diagonal,
with `1e2` at the `(S, S)` entry of every transition except the last, and
`1e8` on the rest of the diagonal. -/
theorem smgp_init_cov_closed (S T : ℕ) (k : Fin T) :
    (smgp_init_pseudo_lik S T).covariance_ k =
      Matrix.diagonal (fun i : Fin (2 * S) =>
        if (k : ℕ) < T - 1 ∧ (i : ℕ) = S then 100 else 100000000) := by
  show matInv (smgp_init_nat2 S T k) = _
  rw [smgp_init_nat2_eq_diagonal]
  apply matInv_eq_of_mul
  · rw [Matrix.det_diagonal]
    apply Finset.prod_ne_zero_iff.mpr
    intro i _
    by_cases hc : (k : ℕ) < T - 1 ∧ (i : ℕ) = S
    · rw [if_pos hc]; norm_num
    · rw [if_neg hc]; norm_num
  · rw [Matrix.diagonal_mul_diagonal]
    have hone : (fun i : Fin (2 * S) =>
        (if (k : ℕ) < T - 1 ∧ (i : ℕ) = S then (1 : ℚ) / 100 else 1 / 100000000) *
        (if (k : ℕ) < T - 1 ∧ (i : ℕ) = S then (100 : ℚ) else 100000000)) =
        fun _ => (1 : ℚ) := by
      funext i
      by_cases hc : (k : ℕ) < T - 1 ∧ (i : ℕ) = S
      · rw [if_pos hc, if_pos hc]; norm_num
      · rw [if_neg hc, if_neg hc]; norm_num
    rw [hone, Matrix.diagonal_one]

/-- C5 counterexample: `SparseMarkovGP` (with state dimension `S = 1` and two
transitions) does not create its site covariance as `≈100` times the
identity: the entry `(0, 0)` of its first site covariance is `1e8`. -/
theorem c5_init_counterexample :
    (smgp_init_pseudo_lik 1 2).covariance_ 0 ≠ (100 : ℚ) • (1 : Mat (2 * 1)) := by
  intro h
  have h00 := congrFun (congrFun h 0) 0
  rw [smgp_init_cov_closed] at h00
  simp only [Matrix.diagonal_apply_eq, Matrix.smul_apply, Matrix.one_apply_eq,
    smul_eq_mul, mul_one] at h00
  norm_num at h00

/-- C5 amended: every model's site and posterior containers are created with
zero means, and the site covariance at construction is `1e2·I` per site for
`GP`, `SparseGP` and `MarkovGP` (which share `BaseModel.__init__`); for
`SparseMarkovGP` however the site covariance is the inverse of the small
initial `nat2`, i.e. diagonal with `1e8` entries except `1e2` at the `(S, S)`
entry of every transition but the last. -/
theorem c5_init_amended (N ps M fd S T : ℕ) :
    ((base_init_pseudo_lik N ps).mean_ = fun _ => 0) ∧
    ((base_init_pseudo_lik N ps).covariance_ = fun _ => (100 : ℚ) • 1) ∧
    (base_init_posterior_mean N fd = fun _ => 0) ∧
    (base_init_posterior_variance N fd = fun _ => 1) ∧
    (sgp_init_posterior_mean M fd = fun _ => 0) ∧
    (sgp_init_posterior_covariance M = 1) ∧
    ((smgp_init_pseudo_lik S T).mean_ = fun _ => 0) ∧
    (smgp_init_posterior_mean S T = fun _ => 0) ∧
    (∀ k, (smgp_init_pseudo_lik S T).covariance_ k =
      Matrix.diagonal (fun i : Fin (2 * S) =>
        if (k : ℕ) < T - 1 ∧ (i : ℕ) = S then 100 else 100000000)) :=
  ⟨rfl, rfl, rfl, rfl, rfl, rfl, rfl, rfl, smgp_init_cov_closed S T⟩

/-- C6 counterexample: with `S = 1` and two transitions, the diagonal entry of
the initial site covariance at the second state's function coordinate
(index `S = 1`) is `1e2`, not the claimed small value `1e-2`: the `1e-2` is
assigned to the natural parameter `nat2`, and the covariance is its
inverse. -/
theorem c6_init_counterexample :
    (smgp_init_pseudo_lik 1 2).covariance_ 0 1 1 ≠ (1 / 100 : ℚ) := by
  rw [smgp_init_cov_closed]
  norm_num [Matrix.diagonal_apply_eq]

/-- C6 amended: at `SparseMarkovGP` construction it is the site *precision*
`nat2`, not the covariance, that has zero off-diagonal blocks, the diagonal
entry at index `S` set to `1e-2` — and only for the transitions before the
last one — and the remaining diagonal entries set to `1e-8`; the initial site
covariance is the inverse of this matrix, which the stored precision
reproduces exactly. -/
theorem c6_init_amended (S T : ℕ) (k : Fin T) :
    smgp_init_nat2 S T k =
      Matrix.diagonal (fun i : Fin (2 * S) =>
        if (k : ℕ) < T - 1 ∧ (i : ℕ) = S then 1 / 100 else 1 / 100000000) ∧
    (smgp_init_pseudo_lik S T).covariance_ k * smgp_init_nat2 S T k = 1 := by
  refine ⟨smgp_init_nat2_eq_diagonal S T k, ?_⟩
  show matInv (smgp_init_nat2 S T k) * smgp_init_nat2 S T k = 1
  apply matInv_mul
  rw [smgp_init_nat2_eq_diagonal, Matrix.det_diagonal]
  apply Finset.prod_ne_zero_iff.mpr
  intro i _
  by_cases hc : (k : ℕ) < T - 1 ∧ (i : ℕ) = S
  · rw [if_pos hc]; norm_num
  · rw [if_neg hc]; norm_num

/-! ## `GP.compute_log_lik` (lines 255-281) -/

/-- `GP.__init__` (line 242): `obs_ind`, the indices of the observed rows —
those whose `Y` entry is not NaN (missing entries are modelled as `none`). -/
def gp_obs_ind {N : ℕ} (Y : Fin N → Option ℚ) : List (Fin N) :=
  (List.finRange N).filter (fun n => !(Y n).isNone)

/-- `GP.compute_log_lik` (lines 255-281), called with no arguments so that the
stored site means and variances are used.  Only the observed rows enter the
kernel matrix `Knn`, the noise injection `Ky = Knn + diag(pseudo_var)`, the
quadratic form and the log-determinant.  The logarithm (applied by the source
to floats) is an opaque parameter `log`, as is the constant
`log2pi = log(2π)`; the source's `np.sum(np.log(np.diag(Ly)))` over the
Cholesky factor `Ly` of `Ky` is half the log-determinant of `Ky`, embedded as
`(1/2) * log Ky.det`. -/
def gp_compute_log_lik {N : ℕ} (log : ℚ → ℚ) (log2pi : ℚ) (kernel : ℚ → ℚ → ℚ)
    (X : Fin N → ℚ) (Y : Fin N → Option ℚ) (g : GaussianDistribution N 1) : ℚ :=
  let o := gp_obs_ind Y
  let Xo : Fin o.length → ℚ := fun i => X (o.get i)
  let pseudo_y : Fin o.length → ℚ := fun i => g.mean_ (o.get i) 0 0
  let pseudo_var : Fin o.length → ℚ := fun i => g.covariance_ (o.get i) 0 0
  let Knn : Mat o.length := Matrix.of fun i j => kernel (Xo i) (Xo j)
  let Ky : Mat o.length := Knn + Matrix.diagonal pseudo_var
  let log_lik_pseudo :=
    -(1 / 2) * Matrix.dotProduct pseudo_y ((matInv Ky).mulVec pseudo_y)
      - (1 / 2) * log Ky.det
      - (1 / 2) * (o.length : ℚ) * 1 * log2pi
  log_lik_pseudo

/-- The Gaussian log normaliser `log N(μ | 0, S)`, written from the spec's
words (§4.F): quadratic form in `S⁻¹`, half log-determinant, and the
`2π`-constant, for an `m`-dimensional Gaussian. -/
def gaussianLogNormaliser (log : ℚ → ℚ) (log2pi : ℚ) {m : ℕ}
    (μ : Fin m → ℚ) (S : Mat m) : ℚ :=
  -(1 / 2) * Matrix.dotProduct μ ((matInv S).mulVec μ)
    - (1 / 2) * log S.det - (m : ℚ) / 2 * log2pi

/-- C7: `GP.compute_log_lik()` returns the Gaussian log normaliser
`log N(μ̃ | 0, K + diag(Σ̃))` in which only the observed rows (mask false,
`Y` not NaN) of the inputs, site means and site variances enter the kernel
matrix, the injected noise and the quadratic and log-determinant terms. -/
theorem gp_compute_log_lik_spec {N : ℕ} (log : ℚ → ℚ) (log2pi : ℚ)
    (kernel : ℚ → ℚ → ℚ) (X : Fin N → ℚ) (Y : Fin N → Option ℚ)
    (g : GaussianDistribution N 1) :
    gp_compute_log_lik log log2pi kernel X Y g =
      gaussianLogNormaliser log log2pi
        (fun i => g.mean_ ((gp_obs_ind Y).get i) 0 0)
        ((Matrix.of fun i j => kernel (X ((gp_obs_ind Y).get i)) (X ((gp_obs_ind Y).get j))) +
          Matrix.diagonal (fun i => g.covariance_ ((gp_obs_ind Y).get i) 0 0)) := by
  show _ = -(1 / 2) * _ - (1 / 2) * _ - ((gp_obs_ind Y).length : ℚ) / 2 * log2pi
  rw [gp_compute_log_lik]
  ring

/-! ## `MarkovGP.posterior_sample` (lines 754-795)

The filter + smoother + temporal-conditional pipeline inside
`MarkovGP.predict` (lines 640-689) is built from `newt.ops` operators that are
external collaborators; its predictive-mean output is therefore a parameter
`predictCore`, a function of the pseudo-observations and pseudo-variances the
pipeline is run with.  Sites are scalar (`func_dim = 1`); `X` has already been
merged with the test inputs into `K` unique locations, with `trainInd` /
`testInd` the inverse index maps produced by `np.unique` (lines 771-779). -/

/-- `MarkovGP.predict` (lines 652-655): when `pseudo_lik_params` is `None`
the pipeline is run with the stored site means and covariances
(`compute_full_pseudo_lik`, temporal case), otherwise with the given pair. -/
def mgp_predict {N K : ℕ} (predictCore : (Fin N → ℚ) → (Fin N → ℚ) → Fin K → ℚ)
    (siteMean siteVar : Fin N → ℚ)
    (pseudo_lik_params : Option ((Fin N → ℚ) × (Fin N → ℚ))) : Fin K → ℚ :=
  match pseudo_lik_params with
  | none => predictCore siteMean siteVar
  | some p => predictCore p.1 p.2

/-- `MarkovGP.posterior_sample` (lines 754-795): draw prior samples, corrupt
the training-located values with site noise `lik_chol @ ξ` (`lik_chol` the
per-site Cholesky factor of the stored site covariance, line 782), smooth each
corrupted sample by re-running the prediction path with it as the
pseudo-observations (the scan of `smooth_prior_sample`), and return
`prior - smoothed + post_mean` at the test indices. -/
def mgp_posterior_sample {N K Nt m : ℕ}
    (predictCore : (Fin N → ℚ) → (Fin N → ℚ) → Fin K → ℚ)
    (priorSamp : Fin m → Fin K → ℚ) (likChol : Fin N → ℚ) (ξ : Fin m → Fin N → ℚ)
    (siteMean siteVar : Fin N → ℚ)
    (trainInd : Fin N → Fin K) (testInd : Fin Nt → Fin K) : List (Fin Nt → ℚ) :=
  let post_mean := mgp_predict predictCore siteMean siteVar none
  let prior_samp_train : Fin m → Fin N → ℚ := fun s n => priorSamp s (trainInd n)
  let prior_samp_y : Fin m → Fin N → ℚ := fun s n =>
    prior_samp_train s n + likChol n * ξ s n
  let smoothed_samples := (jaxScan
    (fun (i : ℕ) ypi =>
      (i + 1, mgp_predict predictCore siteMean siteVar (some (ypi, siteVar))))
    0 (List.ofFn prior_samp_y)).2
  List.zipWith
    (fun (prior_s smoothed_s : Fin K → ℚ) => fun t : Fin Nt =>
      prior_s (testInd t) - smoothed_s (testInd t) + post_mean (testInd t))
    (List.ofFn priorSamp) smoothed_samples

theorem zipWith_ofFn_ofFn {α β γ : Type} {m : ℕ} (f : α → β → γ)
    (a : Fin m → α) (b : Fin m → β) :
    List.zipWith f (List.ofFn a) (List.ofFn b) = List.ofFn (fun i => f (a i) (b i)) := by
  apply List.ext_getElem
  · rw [List.length_zipWith]
    simp
  · intro i h1 h2
    rw [List.getElem_zipWith]
    simp

/-- C8: `MarkovGP.posterior_sample` returns, for every sample index `s`, the
function `f_prior − E[f_prior | y_prior] + μ_post` evaluated at the test
indices, where `f_prior = priorSamp s` is a prior sample,
`y_prior = f_prior + ε` at the training indices with `ε = lik_chol · ξ` (site
noise from the stored site covariance), the conditional mean
`E[f_prior | y_prior]` is the same prediction path run with `y_prior` as the
pseudo-observations (and the stored site covariance as pseudo-variance), and
`μ_post` is the posterior predictive mean, i.e. the prediction path run with
the stored sites. -/
theorem mgp_posterior_sample_spec {N K Nt m : ℕ}
    (predictCore : (Fin N → ℚ) → (Fin N → ℚ) → Fin K → ℚ)
    (priorSamp : Fin m → Fin K → ℚ) (likChol : Fin N → ℚ) (ξ : Fin m → Fin N → ℚ)
    (siteMean siteVar : Fin N → ℚ)
    (trainInd : Fin N → Fin K) (testInd : Fin Nt → Fin K) :
    mgp_posterior_sample predictCore priorSamp likChol ξ siteMean siteVar trainInd testInd =
      List.ofFn (fun s : Fin m => fun t : Fin Nt =>
        priorSamp s (testInd t)
          - predictCore (fun n => priorSamp s (trainInd n) + likChol n * ξ s n)
              siteVar (testInd t)
          + predictCore siteMean siteVar (testInd t)) := by
  rw [mgp_posterior_sample]
  rw [jaxScan_counter_map
    (fun ypi => mgp_predict predictCore siteMean siteVar (some (ypi, siteVar)))
    (List.ofFn fun s n => priorSamp s (trainInd n) + likChol n * ξ s n) 0]
  rw [List.map_ofFn, zipWith_ofFn_ofFn]
  rfl

/-! ## The `conditional_mean` cache protocol of `SparseMarkovGP`
(lines 837, 944-985)

`compute_conditional_statistics` lives in `newt.utils` (external); its
per-point outputs `P` (conditional mean factor `[S, 2S]`) and `T` (residual
covariance `[S, S]`) are parameters.  Function values are extracted with the
measurement model `H` (temporal case, lines 971-972).  Calling
`conditional_data_to_posterior` while the cache is still `None` applies
`np.swapaxes` to `None`, which raises instead of returning a value; the fallible
call is therefore embedded as an `Option`. -/

/-- `SparseMarkovGP.__init__` (line 837): the `conditional_mean` cache starts
out as `None`. -/
def smgp_init_conditional_mean (Nb fd sd2 : ℕ) :
    Option (Fin Nb → Matrix (Fin fd) (Fin sd2) ℚ) := none

/-- `SparseMarkovGP.conditional_posterior_to_data` (lines 944-977, temporal
branch): compute the projector `W = H @ P_n`, store it in the
`conditional_mean` cache, and return the cache together with the projected
means `W @ post_mean` and covariances `W @ post_cov @ Wᵀ + H @ T_n @ Hᵀ`. -/
def smgp_conditional_posterior_to_data {Nb fd sd sd2 : ℕ}
    (H : Matrix (Fin fd) (Fin sd) ℚ)
    (P : Fin Nb → Matrix (Fin sd) (Fin sd2) ℚ) (T : Fin Nb → Mat sd)
    (post_mean : Fin Nb → Matrix (Fin sd2) (Fin 1) ℚ) (post_cov : Fin Nb → Mat sd2) :
    Option (Fin Nb → Matrix (Fin fd) (Fin sd2) ℚ) ×
      (Fin Nb → Col fd) × (Fin Nb → Mat fd) :=
  let conditional_mean := fun n => H * P n
  let conditional_cov := fun n => H * T n * Matrix.transpose H
  (some conditional_mean,
   fun n => conditional_mean n * post_mean n,
   fun n => conditional_mean n * post_cov n * Matrix.transpose (conditional_mean n) +
     conditional_cov n)

/-- `SparseMarkovGP.conditional_data_to_posterior` (lines 979-985): requires
the cached `conditional_mean`; with an empty cache (`None`, the value at
construction) the call fails rather than returning a value, otherwise it
returns `(Wᵀ @ mean_f, Wᵀ @ cov_f @ W)`. -/
def smgp_conditional_data_to_posterior {Nb fd sd2 : ℕ}
    (cache : Option (Fin Nb → Matrix (Fin fd) (Fin sd2) ℚ))
    (mean_f : Fin Nb → Col fd) (cov_f : Fin Nb → Mat fd) :
    Option ((Fin Nb → Matrix (Fin sd2) (Fin 1) ℚ) × (Fin Nb → Mat sd2)) :=
  match cache with
  | none => none
  | some W => some
      (fun n => Matrix.transpose (W n) * mean_f n,
       fun n => Matrix.transpose (W n) * cov_f n * W n)

/-- C9: calling `conditional_data_to_posterior` while the cached
`conditional_mean` is still `None` — its value at `SparseMarkovGP`
construction — produces an error, not a value; after a matching
`conditional_posterior_to_data` (which caches the projector `W = H @ P`) it
returns `(Wᵀ @ mean_f, Wᵀ @ cov_f @ W)`. -/
theorem smgp_conditional_protocol_spec {Nb fd sd sd2 : ℕ}
    (H : Matrix (Fin fd) (Fin sd) ℚ)
    (P : Fin Nb → Matrix (Fin sd) (Fin sd2) ℚ) (T : Fin Nb → Mat sd)
    (post_mean : Fin Nb → Matrix (Fin sd2) (Fin 1) ℚ) (post_cov : Fin Nb → Mat sd2)
    (mean_f : Fin Nb → Col fd) (cov_f : Fin Nb → Mat fd) :
    smgp_conditional_data_to_posterior (smgp_init_conditional_mean Nb fd sd2)
      mean_f cov_f = none ∧
    (smgp_conditional_posterior_to_data H P T post_mean post_cov).1 =
      some (fun n => H * P n) ∧
    smgp_conditional_data_to_posterior
      (smgp_conditional_posterior_to_data H P T post_mean post_cov).1 mean_f cov_f =
      some (fun n => Matrix.transpose (H * P n) * mean_f n,
            fun n => Matrix.transpose (H * P n) * cov_f n * (H * P n)) :=
  ⟨rfl, rfl, rfl⟩

/-! ## Frame effects of `GP.predict` (lines 283-296) and `SparseGP.predict`
(lines 433-447)

The dense conditional `gaussian_conditional`, the sparse conditional
`sparse_gaussian_conditional` and `sparse_conditional_post_to_data` live in
`newt.ops` (external); they are parameters `gc`, `sgc`, `spd`.  Methods are
state transformers returning the updated model state together with their
output. -/

/-- The mutable state of a `GP` model that its methods can touch. -/
structure GPState (N : ℕ) : Type where
  X : Fin N → ℚ
  pseudo_likelihood : GaussianDistribution N 1
  posterior_mean : Fin N → Col 1
  posterior_variance : Fin N → Mat 1

/-- `GP.predict` (lines 283-296): run the dense Gaussian conditional on the
stored site means and covariances; no field of the model is assigned. -/
def gp_predict {N Nt : ℕ}
    (gc : (Fin N → Col 1) → (Fin N → Mat 1) → (Fin N → ℚ) → (Fin Nt → ℚ) →
      (Fin Nt → ℚ) × Mat Nt)
    (s : GPState N) (Xt : Fin Nt → ℚ) :
    GPState N × ((Fin Nt → ℚ) × (Fin Nt → ℚ)) :=
  let mc := gc s.pseudo_likelihood.mean_ s.pseudo_likelihood.covariance_ s.X Xt
  (s, (mc.1, fun t => mc.2 t t))

/-- The mutable state of a `SparseGP` model that its methods can touch. -/
structure SGPState (N M : ℕ) : Type where
  X : Fin N → ℚ
  Z : Fin M → ℚ
  pseudo_likelihood : GaussianDistribution N 1
  posterior_mean : Fin M → Col 1
  posterior_variance : Fin M → Mat 1
  posterior_covariance : Mat M

/-- `SparseGP.update_posterior` (lines 359-370): run the sparse Gaussian
conditional on the stored site naturals and overwrite `posterior_mean`,
`posterior_variance` and `posterior_covariance`. -/
def sgp_update_posterior {N M : ℕ}
    (sgc : (Fin N → Col 1) → (Fin N → Mat 1) → (Fin N → ℚ) → (Fin M → ℚ) →
      (Fin M → ℚ) × Mat M)
    (s : SGPState N M) : SGPState N M :=
  let mc := sgc s.pseudo_likelihood.nat1_ s.pseudo_likelihood.nat2_ s.X s.Z
  { s with
    posterior_mean := fun i => Matrix.of fun _ _ => mc.1 i
    posterior_variance := fun i => Matrix.of fun _ _ => mc.2 i i
    posterior_covariance := mc.2 }

/-- `SparseGP.predict` (lines 433-447): first call `self.update_posterior()`,
then map the recomputed `q(u)` to the test locations. -/
def sgp_predict {N M Nt : ℕ}
    (sgc : (Fin N → Col 1) → (Fin N → Mat 1) → (Fin N → ℚ) → (Fin M → ℚ) →
      (Fin M → ℚ) × Mat M)
    (spd : (Fin M → Col 1) → Mat M → (Fin Nt → ℚ) → (Fin M → ℚ) →
      (Fin Nt → ℚ) × Mat Nt)
    (s : SGPState N M) (Xt : Fin Nt → ℚ) :
    SGPState N M × ((Fin Nt → ℚ) × (Fin Nt → ℚ)) :=
  let s2 := sgp_update_posterior sgc s
  let mc := spd s2.posterior_mean s2.posterior_covariance Xt s2.Z
  (s2, (mc.1, fun t => mc.2 t t))

/-- C10: `GP.predict` leaves the whole model state (site store, posterior
moments) unchanged, whereas `SparseGP.predict` first recomputes the posterior
— its resulting state is exactly the state after `update_posterior`, which in
general differs from the incoming state (witnessed by a concrete model whose
stored posterior covariance the prediction overwrites). -/
theorem predict_frame_spec :
    (∀ (N Nt : ℕ)
      (gc : (Fin N → Col 1) → (Fin N → Mat 1) → (Fin N → ℚ) → (Fin Nt → ℚ) →
        (Fin Nt → ℚ) × Mat Nt)
      (s : GPState N) (Xt : Fin Nt → ℚ), (gp_predict gc s Xt).1 = s) ∧
    (∀ (N M Nt : ℕ)
      (sgc : (Fin N → Col 1) → (Fin N → Mat 1) → (Fin N → ℚ) → (Fin M → ℚ) →
        (Fin M → ℚ) × Mat M)
      (spd : (Fin M → Col 1) → Mat M → (Fin Nt → ℚ) → (Fin M → ℚ) →
        (Fin Nt → ℚ) × Mat Nt)
      (s : SGPState N M) (Xt : Fin Nt → ℚ),
      (sgp_predict sgc spd s Xt).1 = sgp_update_posterior sgc s) ∧
    (∃ (sgc : (Fin 1 → Col 1) → (Fin 1 → Mat 1) → (Fin 1 → ℚ) → (Fin 1 → ℚ) →
        (Fin 1 → ℚ) × Mat 1)
      (spd : (Fin 1 → Col 1) → Mat 1 → (Fin 1 → ℚ) → (Fin 1 → ℚ) →
        (Fin 1 → ℚ) × Mat 1)
      (s : SGPState 1 1) (Xt : Fin 1 → ℚ),
      (sgp_predict sgc spd s Xt).1 ≠ s) := by
  refine ⟨fun _ _ _ _ _ => rfl, fun _ _ _ _ _ _ _ => rfl, ?_⟩
  refine ⟨fun _ _ _ _ => (fun _ => 1, 1), fun _ _ _ _ => (fun _ => 0, 0),
    ⟨fun _ => 0, fun _ => 0, gd_mk (fun _ => 0) (fun _ => 1),
      fun _ => 0, fun _ => 1, 0⟩, fun _ => 0, ?_⟩
  intro h
  have hc := congrArg SGPState.posterior_covariance h
  have h00 := congrFun (congrFun hc 0) 0
  simp only [sgp_predict, sgp_update_posterior] at h00
  rw [Matrix.one_apply_eq] at h00
  exact one_ne_zero (h00.trans (congrFun (congrFun rfl 0) 0))

/-- Witness for C10 at a concrete input: a one-point dense model's state is
untouched by prediction. -/
theorem predict_frame_spec_witness :
    (gp_predict (fun _ _ _ _ => (fun _ => 0, 0))
      (⟨fun _ => 0, gd_mk (fun _ => 0) (fun _ => 1), fun _ => 0, fun _ => 1⟩ : GPState 1)
      (fun _ : Fin 1 => 0)).1 =
      ⟨fun _ => 0, gd_mk (fun _ => 0) (fun _ => 1), fun _ => 0, fun _ => 1⟩ :=
  predict_frame_spec.1 1 1 (fun _ _ _ _ => (fun _ => 0, 0))
    ⟨fun _ => 0, gd_mk (fun _ => 0) (fun _ => 1), fun _ => 0, fun _ => 1⟩ (fun _ => 0)
